import Mathlib

set_option autoImplicit false

namespace AwsSamlAuth

/-! Shallow embedding of `aws_saml_auth/amazon.py`.

String-level helpers mirror the Python primitives the module uses
(`in`, `str.split`, `re.search`); the network and the process environment
are passed in explicitly as functions and values. -/

/-- Longest run of decimal digits at the head of a character list. -/
def leadingDigits : List Char → List Char
  | [] => []
  | c :: cs => if c.isDigit then c :: leadingDigits cs else []

/-- Numeric value of a digit string, as Python `int` of a matched group. -/
def digitsVal (ds : List Char) : Nat :=
  ds.foldl (fun n c => 10 * n + (c.toNat - Char.toNat '0')) 0

/-- Python `needle in hay` substring membership. -/
def listContains (needle : List Char) : List Char → Bool
  | [] => needle.isEmpty
  | c :: cs => needle.isPrefixOf (c :: cs) || listContains needle cs

/-- Python `s.split(sep)` for a one-character separator: splits at every
occurrence and keeps empty fields. -/
def pySplitChar (sep : Char) : List Char → List (List Char)
  | [] => [[]]
  | c :: cs =>
    let r := pySplitChar sep cs
    if c = sep then [] :: r
    else
      match r with
      | h :: t => (c :: h) :: t
      | [] => [[c]]

/-- String version of `pySplitChar`. -/
def pySplitStr (sep : Char) (s : String) : List String :=
  (pySplitChar sep s.toList).map List.asString

/-- Literal part of the duration-narrowing pattern used by `assume_role`:
the text of the `re.search` pattern before the capture group. -/
def boundPhrase : List Char :=
  "Member must have value less than or equal to ".toList

/-- Match attempt at one start position for the narrowing pattern: the
literal phrase followed by a greedy run of three to five digits; yields
the numeric value of the captured group. -/
def matchBoundAt (s : List Char) : Option Nat :=
  if boundPhrase.isPrefixOf s then
    let ds := (leadingDigits (s.drop boundPhrase.length)).take 5
    if 3 ≤ ds.length then some (digitsVal ds) else none
  else none

/-- Model of `re.search` for the narrowing pattern: the match at the
leftmost position where one exists. -/
def searchBound : List Char → Option Nat
  | [] => none
  | c :: cs =>
    match matchBoundAt (c :: cs) with
    | some n => some n
    | none => searchBound cs

/-- Credential triple (plus expiration) inside the `Credentials` field of
an `assume_role_with_saml` response. -/
structure Credentials where
  accessKeyId : String
  secretAccessKey : String
  sessionToken : String
  expiration : String
  deriving Repr, DecidableEq

/-- Successful response of `assume_role_with_saml`. -/
structure StsResult where
  credentials : Credentials
  deriving Repr, DecidableEq

/-- Fields of a botocore `ClientError` that `assume_role` consults: the
`Error` dict's `Code` and `Message` entries, either possibly missing. -/
structure ClientError where
  code : Option String
  message : Option String
  deriving Repr, DecidableEq

/-- Configuration fields consulted by `assume_role`. -/
structure Config where
  auto_duration : Bool
  max_duration : Nat
  deriving Repr, DecidableEq

/-- Token-issuing endpoint. The first argument is the index of the call
within one `assume_role` invocation, so a stateful server may answer
successive calls differently; the second is the `DurationSeconds` request
parameter, `none` when the parameter is omitted. -/
abbrev Endpoint : Type := Nat → Option Nat → Except ClientError StsResult

/-- Python truthiness of the optional `Message` string: present and
non-empty. -/
def truthyStr : Option String → Bool
  | none => false
  | some s => !s.isEmpty

/-- Python truthiness of the optional `duration` argument: `None` and `0`
are falsy. -/
def truthyNat : Option Nat → Bool
  | none => false
  | some n => n != 0

/-- Tail part of `Amazon.assume_role`: the `elif duration:` branch
followed by the endpoint call at the end of the function. This is the
entire behavior of `assume_role` whenever
`self.config.auto_duration and auto_duration` is false — in particular
for the source's recursive call, which passes `auto_duration=False` and
therefore lands exactly here. -/
def assume_roleFixed (ep : Endpoint) (duration : Option Nat) (k : Nat) :
    Except ClientError StsResult × List (Option Nat) :=
  if truthyNat duration then (ep k duration, [duration])
  else (ep k none, [none])

/-- Model of `Amazon.assume_role` with the endpoint and the call counter
explicit. Returns the result (`Except` mirrors return versus raise)
together with the list of `DurationSeconds` values of the endpoint calls
performed, in order. When the probe inside the `try` block succeeds, its
result is discarded and control falls through to the call at the end of
the function with `DurationSeconds` still set to `max_duration`, so a
second call with the maximum duration occurs — this mirrors the source
exactly. The source's recursive narrowing call, made with
`auto_duration=False`, is inlined as `assume_roleFixed`, which is its
exact behavior. -/
def assume_role (config : Config) (ep : Endpoint) (duration : Option Nat)
    (auto_duration : Bool) (k : Nat) :
    Except ClientError StsResult × List (Option Nat) :=
  if config.auto_duration && auto_duration then
    match ep k (some config.max_duration) with
    | Except.ok _ =>
        (ep (k + 1) (some config.max_duration),
         [some config.max_duration, some config.max_duration])
    | Except.error err =>
        if err.code == some "ValidationError" && truthyStr err.message then
          match searchBound (err.message.getD "").toList with
          | some n =>
              let r := assume_roleFixed ep (some n) (k + 1)
              (r.1, some config.max_duration :: r.2)
          | none => (Except.error err, [some config.max_duration])
        else (Except.error err, [some config.max_duration])
  else assume_roleFixed ep duration k

/-! Datetime model for `is_valid_saml_assertion`: `datetime.strptime` with
format `%Y-%m-%dT%H:%M:%S.%fZ`, following the per-directive regexes of
CPython's `_strptime` and the `datetime` constructor's range checks. -/

/-- Numeric value of one digit character. -/
def dval (c : Char) : Nat := c.toNat - Char.toNat '0'

/-- Naive UTC datetime, as CPython's `datetime` value for comparisons. -/
structure DateTime where
  year : Nat
  month : Nat
  day : Nat
  hour : Nat
  minute : Nat
  second : Nat
  microsecond : Nat
  deriving Repr, DecidableEq

/-- Candidates for the `%m` directive, in the alternation order of its
regex (two-digit forms, then one digit 1-9). -/
def monthCands : List Char → List (Nat × List Char)
  | [] => []
  | [a] => if a.isDigit && a != '0' then [(dval a, [])] else []
  | a :: b :: rest =>
      (if a == '1' && b.isDigit && dval b ≤ 2 then [(10 + dval b, rest)] else []) ++
      (if a == '0' && b.isDigit && b != '0' then [(dval b, rest)] else []) ++
      (if a.isDigit && a != '0' then [(dval a, b :: rest)] else [])

/-- Candidates for the `%d` directive, in regex alternation order. -/
def dayCands : List Char → List (Nat × List Char)
  | [] => []
  | [a] => if a.isDigit && a != '0' then [(dval a, [])] else []
  | a :: b :: rest =>
      (if a == '3' && b.isDigit && dval b ≤ 1 then [(30 + dval b, rest)] else []) ++
      (if (a == '1' || a == '2') && b.isDigit then [(10 * dval a + dval b, rest)] else []) ++
      (if a == '0' && b.isDigit && b != '0' then [(dval b, rest)] else []) ++
      (if a.isDigit && a != '0' then [(dval a, b :: rest)] else [])

/-- Candidates for the `%H` directive, in regex alternation order. -/
def hourCands : List Char → List (Nat × List Char)
  | [] => []
  | [a] => if a.isDigit then [(dval a, [])] else []
  | a :: b :: rest =>
      (if a == '2' && b.isDigit && dval b ≤ 3 then [(20 + dval b, rest)] else []) ++
      (if (a == '0' || a == '1') && b.isDigit then [(10 * dval a + dval b, rest)] else []) ++
      (if a.isDigit then [(dval a, b :: rest)] else [])

/-- Candidates for the `%M` directive, in regex alternation order. -/
def minuteCands : List Char → List (Nat × List Char)
  | [] => []
  | [a] => if a.isDigit then [(dval a, [])] else []
  | a :: b :: rest =>
      (if a.isDigit && dval a ≤ 5 && b.isDigit then [(10 * dval a + dval b, rest)] else []) ++
      (if a.isDigit then [(dval a, b :: rest)] else [])

/-- Candidates for the `%S` directive (its regex also admits leap seconds
60 and 61, which the `datetime` constructor then rejects). -/
def secondCands : List Char → List (Nat × List Char)
  | [] => []
  | [a] => if a.isDigit then [(dval a, [])] else []
  | a :: b :: rest =>
      (if a == '6' && b.isDigit && dval b ≤ 1 then [(60 + dval b, rest)] else []) ++
      (if a.isDigit && dval a ≤ 5 && b.isDigit then [(10 * dval a + dval b, rest)] else []) ++
      (if a.isDigit then [(dval a, b :: rest)] else [])

/-- Gregorian leap-year test. -/
def isLeapYear (y : Nat) : Bool := (y % 4 == 0 && y % 100 != 0) || y % 400 == 0

/-- Number of days in a month. -/
def daysInMonth (y m : Nat) : Nat :=
  if m == 2 then (if isLeapYear y then 29 else 28)
  else if m == 4 || m == 6 || m == 9 || m == 11 then 30
  else 31

/-- Range checks of the `datetime` constructor on the fields delivered by
the format's regex (it already bounds month, hour and minute; year zero,
out-of-month days and leap seconds still raise `ValueError`). -/
def mkDateTimeValid (y mo d h mi s us : Nat) : Option DateTime :=
  if 1 ≤ y && 1 ≤ d && d ≤ daysInMonth y mo && s ≤ 59 then
    some ⟨y, mo, d, h, mi, s, us⟩
  else none

/-- The `%f` directive followed by the literal `Z` and end of input: one
to six digits, right-padded with zeros to microseconds. -/
def parseFraction (cs : List Char) : Option Nat :=
  let ds := leadingDigits cs
  if 1 ≤ ds.length && ds.length ≤ 6 && cs.drop ds.length == ['Z'] then
    some (digitsVal ds * 10 ^ (6 - ds.length))
  else none

/-- Model of `datetime.strptime(s, "%Y-%m-%dT%H:%M:%S.%fZ")`: `none` when
CPython would raise (no regex match of the full string, or constructor
range error). -/
def strptimeSaml (s : String) : Option DateTime :=
  match s.toList with
  | y1 :: y2 :: y3 :: y4 :: '-' :: rest1 =>
    if y1.isDigit && y2.isDigit && y3.isDigit && y4.isDigit then
      (monthCands rest1).findSome? fun mc =>
        match mc.2 with
        | '-' :: rest2 =>
          (dayCands rest2).findSome? fun dc =>
            match dc.2 with
            | 'T' :: rest3 =>
              (hourCands rest3).findSome? fun hc =>
                match hc.2 with
                | ':' :: rest4 =>
                  (minuteCands rest4).findSome? fun mic =>
                    match mic.2 with
                    | ':' :: rest5 =>
                      (secondCands rest5).findSome? fun sc =>
                        match sc.2 with
                        | '.' :: rest6 =>
                          match parseFraction rest6 with
                          | some us =>
                              mkDateTimeValid (digitsVal [y1, y2, y3, y4])
                                mc.1 dc.1 hc.1 mic.1 sc.1 us
                          | none => none
                        | _ => none
                    | _ => none
                | _ => none
            | _ => none
        | _ => none
    else none
  | _ => none

/-- Strict comparison of naive datetimes: CPython compares them as the
tuple of their fields, lexicographically. -/
def dtLt (a b : DateTime) : Bool :=
  if a.year ≠ b.year then decide (a.year < b.year)
  else if a.month ≠ b.month then decide (a.month < b.month)
  else if a.day ≠ b.day then decide (a.day < b.day)
  else if a.hour ≠ b.hour then decide (a.hour < b.hour)
  else if a.minute ≠ b.minute then decide (a.minute < b.minute)
  else if a.second ≠ b.second then decide (a.second < b.second)
  else decide (a.microsecond < b.microsecond)

/-- Non-strict datetime comparison. -/
def dtLe (a b : DateTime) : Bool := dtLt a b || a == b

/-- One `Conditions` element of the assertion: its `NotBefore` and
`NotOnOrAfter` attributes, each possibly absent. -/
structure CondElem where
  notBefore : Option String
  notOnOrAfter : Option String
  deriving Repr, DecidableEq

/-- Parsed SAML document, reduced to what `is_valid_saml_assertion`
inspects: the `Conditions` elements in document order. -/
structure SamlDoc where
  conditions : List CondElem
  deriving Repr, DecidableEq

/-- Model of `Amazon.is_valid_saml_assertion`. The input distinguishes a
`None` argument (`none`), a byte string `etree.fromstring` rejects
(`some none`), and a parsed document (`some (some doc)`); `now` stands
for `datetime.utcnow()`. Every raising path of the source sits inside its
`try` and yields `false`. -/
def is_valid_saml_assertion (saml_xml : Option (Option SamlDoc))
    (now : DateTime) : Bool :=
  match saml_xml with
  | none => false
  | some none => false
  | some (some doc) =>
    match doc.conditions with
    | [] => false
    | c :: _ =>
      match c.notBefore, c.notOnOrAfter with
      | some nbs, some noas =>
        match strptimeSaml nbs, strptimeSaml noas with
        | some nb, some noa => dtLe nb now && dtLt now noa
        | _, _ => false
      | _, _ => false

/-! Role extraction and alias resolution. -/

/-- Python membership test of the two IAM partition markers used by
`Amazon.roles`. -/
def hasIamMarker (x : String) : Bool :=
  listContains "arn:aws:iam:".toList x.toList ||
  listContains "arn:aws-us-gov:iam:".toList x.toList

/-- Python dict assignment `d[k] = v` on an association list: an existing
key keeps its position and gets the new value, a new key is appended.
Keys of a dict built by assignments are unique, so updating the first
occurrence is the full Python semantics. -/
def dictInsert : List (String × String) → String → String →
    List (String × String)
  | [], k, v => [(k, v)]
  | kv :: rest, k, v =>
      if kv.1 == k then (k, v) :: rest else kv :: dictInsert rest k v

/-- Lookup in the association-list dict. -/
def dictLookup : List (String × String) → String → Option String
  | [], _ => none
  | kv :: rest, k => if kv.1 == k then some kv.2 else dictLookup rest k

/-- Loop body of `Amazon.roles` over the attribute text nodes: a node
containing a marker is split on every comma and fields 0 and 1 are
stored; indexing `res[1]` raises `IndexError` when the node has no comma,
and that exception is not caught. -/
def rolesAux (acc : List (String × String)) :
    List String → Except String (List (String × String))
  | [] => Except.ok acc
  | x :: rest =>
    if hasIamMarker x then
      match pySplitStr ',' x with
      | r0 :: r1 :: _ => rolesAux (dictInsert acc r0 r1) rest
      | _ => Except.error "IndexError: list index out of range"
    else rolesAux acc rest

/-- Model of `Amazon.roles`, over the list of text nodes the XPath query
returns (document order). -/
def roles (texts : List String) : Except String (List (String × String)) :=
  rolesAux [] texts

/-- The expression `role.split(":")[4]` of `resolve_aws_aliases` (partial
in the source; total here, with the guard made explicit at use sites). -/
def accountId (role : String) : String := (pySplitStr ':' role).getD 4 ""

/-- Model of `Amazon.resolve_aws_aliases`. `resolve` abstracts the body of
the worker's `try` block up to the alias value (`none` for any raise in
it); the worker threads are linearized in spawn order, which fixes one
interleaving of the unsynchronized dict writes. A worker whose role ARN
has fewer than five colon-separated fields raises `IndexError` both in
the `try` block and again inside the `except` handler, so its thread dies
without writing an entry and without affecting the others. `resolveStep`
is the contribution of one worker to the shared dict. -/
def resolveStep (resolve : String → String → Option String)
    (aws_dict : List (String × String)) (rp : String × String) :
    List (String × String) :=
  if 5 ≤ (pySplitStr ':' rp.1).length then
    match resolve rp.1 rp.2 with
    | some a => dictInsert aws_dict (accountId rp.1) a
    | none => dictInsert aws_dict (accountId rp.1) (accountId rp.1)
  else aws_dict

/-- Fan-out and fan-in of `resolve_aws_aliases` over the role map. -/
def resolve_aws_aliases (resolve : String → String → Option String)
    (rolesMap : List (String × String)) : List (String × String) :=
  rolesMap.foldl (resolveStep resolve) []

/-! Client construction and the credential cache. -/

/-- Errors `boto3.client` may raise during construction. -/
inductive BotoError where
  | profileNotFound (msg : String)
  | other (msg : String)
  deriving Repr, DecidableEq

/-- Errors escaping the `sts_client` property. -/
inductive StsClientError where
  | expectedAmazon (msg : String)
  | other (msg : String)
  deriving Repr, DecidableEq

/-- Model of the `Amazon.sts_client` property. `env` is the value of the
`AWS_PROFILE` environment variable at entry; `mkClient` is
`boto3.client`, receiving the variable's value during construction.
Returns the outcome together with the variable's value at exit. The
source restores the variable only on the success path: both raising
paths leave it deleted. -/
def sts_client {α : Type} (env : Option String)
    (mkClient : Option String → Except BotoError α) :
    Except StsClientError α × Option String :=
  let profile := env
  match mkClient none with
  | Except.ok c => (Except.ok c, profile)
  | Except.error (BotoError.profileNotFound m) =>
      (Except.error (StsClientError.expectedAmazon ("Error : " ++ m ++ ".")), none)
  | Except.error (BotoError.other m) =>
      (Except.error (StsClientError.other m), none)

/-- The `self.__token` cell of an `Amazon` instance. -/
structure AmazonState where
  token : Option StsResult
  deriving Repr, DecidableEq

/-- Model of `Amazon.__init__` restricted to the token cell: a truthy
`config.token_cache` seeds the cell with `{"Credentials": cache}`. -/
def Amazon.init (token_cache : Option Credentials) : AmazonState :=
  match token_cache with
  | some c => { token := some { credentials := c } }
  | none => { token := none }

/-- Model of the `Amazon.token` property: `issue` abstracts the
`assume_role` call together with the number of endpoint calls it makes.
Returns the token, the state after the access, and how many endpoint
calls this access made. -/
def Amazon.tokenGet (s : AmazonState) (issue : Unit → StsResult × Nat) :
    StsResult × AmazonState × Nat :=
  match s.token with
  | some t => (t, s, 0)
  | none =>
    let r := issue ()
    (r.1, { token := some r.1 }, r.2)

/-- Model of the derived accessor `Amazon.access_key_id`, reading through
the `token` property. -/
def Amazon.access_key_id (s : AmazonState) (issue : Unit → StsResult × Nat) :
    String × AmazonState × Nat :=
  let r := Amazon.tokenGet s issue
  (r.1.credentials.accessKeyId, r.2.1, r.2.2)

/-! Theorems and supporting lemmas. -/

/-- C1: evaluation of `assume_role` at the failing input. With adaptive
negotiation enabled and an endpoint that accepts the probe request, the
code performs a second endpoint call (the fall-through after the `try`
block) and returns that second call's credential, discarding the probe's
result — so issue does not stop at one endpoint call on probe success. -/
theorem c1_probe_success_makes_two_calls :
    assume_role { auto_duration := true, max_duration := 43200 }
        (fun k _ =>
          if k == 0 then Except.ok ⟨⟨"AKIA1", "S1", "T1", "E1"⟩⟩
          else Except.ok ⟨⟨"AKIA2", "S2", "T2", "E2"⟩⟩)
        none true 0
      = (Except.ok ⟨⟨"AKIA2", "S2", "T2", "E2"⟩⟩, [some 43200, some 43200]) ∧
    (StsResult.mk ⟨"AKIA1", "S1", "T1", "E1"⟩)
      ≠ StsResult.mk ⟨"AKIA2", "S2", "T2", "E2"⟩ := by
  exact ⟨rfl, by decide⟩

/-- C5: the credential is materialized at most once per broker instance —
a second access through the `token` property (and a derived accessor such
as `access_key_id`) returns the memoized value with no further endpoint
call, and a broker seeded from a persisted token cache answers every
access from the seed with zero endpoint calls. -/
theorem c5_token_memoized (s : AmazonState) (issue : Unit → StsResult × Nat)
    (c : Credentials) :
    Amazon.tokenGet (Amazon.tokenGet s issue).2.1 issue
        = ((Amazon.tokenGet s issue).1, (Amazon.tokenGet s issue).2.1, 0) ∧
    Amazon.access_key_id (Amazon.tokenGet s issue).2.1 issue
        = ((Amazon.tokenGet s issue).1.credentials.accessKeyId,
           (Amazon.tokenGet s issue).2.1, 0) ∧
    Amazon.tokenGet (Amazon.init (some c)) issue
        = ({ credentials := c }, Amazon.init (some c), 0) := by
  obtain ⟨t⟩ := s
  cases t <;> simp [Amazon.tokenGet, Amazon.access_key_id, Amazon.init]

/-- C9, counterexample: when client construction fails, `sts_client` does
not restore `AWS_PROFILE` — the variable is left deleted, so the ambient
setting is not unchanged on every exit path. -/
theorem c9_profile_lost_on_failure :
    (sts_client (some "prod")
        (fun _ => (Except.error (BotoError.other "boom") : Except BotoError Nat))).2
      = none ∧
    (none : Option String) ≠ some "prod" := by
  exact ⟨rfl, by decide⟩

/-- C9, amended: `AWS_PROFILE` is removed for the duration of client
construction; it is restored to its prior value when construction
succeeds, and remains removed when construction raises. -/
theorem c9_profile_restored_only_on_success {α : Type} (env : Option String)
    (mkClient : Option String → Except BotoError α) :
    (∀ c, mkClient none = Except.ok c →
      sts_client env mkClient = (Except.ok c, env)) ∧
    (∀ e, mkClient none = Except.error e →
      (sts_client env mkClient).2 = none) := by
  constructor
  · intro c h
    simp [sts_client, h]
  · intro e h
    cases e <;> simp [sts_client, h]

/-- Closed witness for `c9_profile_restored_only_on_success`. -/
theorem c9_profile_restored_only_on_success_witness :
    sts_client (some "prod")
        (fun _ => (Except.ok 7 : Except BotoError Nat))
      = (Except.ok 7, some "prod") ∧
    (sts_client (some "prod")
        (fun _ => (Except.error (BotoError.profileNotFound "p") :
          Except BotoError Nat))).2 = none := by
  exact ⟨(c9_profile_restored_only_on_success (some "prod") _).1 7 rfl,
    (c9_profile_restored_only_on_success (some "prod") _).2
      (BotoError.profileNotFound "p") rfl⟩

/-- C6, counterexample: a marker-containing attribute text with two commas
is split at every comma and only fields 0 and 1 are kept, so the stored
value is not the remainder of a single split — splitting once would give
value a second field of two, here the string after the first comma. -/
theorem c6_value_not_single_split :
    roles ["arn:aws:iam::1:role/A,p,extra"]
      = Except.ok [("arn:aws:iam::1:role/A", "p")] ∧
    ("p" : String) ≠ "p,extra" := by
  exact ⟨rfl, by decide⟩

/-- Lemma: text nodes without an IAM partition marker contribute nothing. -/
theorem rolesAux_no_marker (texts : List String) :
    ∀ acc, (∀ x ∈ texts, hasIamMarker x = false) →
      rolesAux acc texts = Except.ok acc := by
  induction texts with
  | nil => intro acc _; rfl
  | cons x rest ih =>
    intro acc h
    have hx : hasIamMarker x = false := h x (List.mem_cons_self x rest)
    simp only [rolesAux, hx, Bool.false_eq_true, if_false]
    exact ih acc fun y hy => h y (List.mem_cons_of_mem x hy)

/-- C6, amended: each marker-containing text node is split at every comma
and contributes the binding of its first field to its second field
(fields beyond the second are discarded); an assertion with no
marker-containing text yields the empty mapping; the concrete example of
the claim yields exactly its stated mapping. -/
theorem c6_roles_field_semantics :
    (∀ texts, (∀ x ∈ texts, hasIamMarker x = false) →
      roles texts = Except.ok []) ∧
    (∀ x f0 f1 fs, hasIamMarker x = true → pySplitStr ',' x = f0 :: f1 :: fs →
      roles [x] = Except.ok [(f0, f1)]) ∧
    roles ["arn:aws:iam::111111111111:role/Foo,arn:aws:iam::111111111111:saml-provider/Bar"]
      = Except.ok [("arn:aws:iam::111111111111:role/Foo",
                    "arn:aws:iam::111111111111:saml-provider/Bar")] := by
  refine ⟨fun texts h => rolesAux_no_marker texts [] h, ?_, rfl⟩
  intro x f0 f1 fs hx hsplit
  simp [roles, rolesAux, hx, hsplit, dictInsert]

/-- Closed witness for `c6_roles_field_semantics`. -/
theorem c6_roles_field_semantics_witness :
    roles ["no marker here"] = Except.ok [] ∧
    roles ["x,arn:aws:iam::1:saml-provider/P"]
      = Except.ok [("x", "arn:aws:iam::1:saml-provider/P")] := by
  exact ⟨c6_roles_field_semantics.1 ["no marker here"] (by decide),
    c6_roles_field_semantics.2.1 "x,arn:aws:iam::1:saml-provider/P"
      "x" "arn:aws:iam::1:saml-provider/P" [] (by decide) (by decide)⟩

/-- Lemma: Python `split` never returns an empty list. -/
theorem pySplitChar_ne_nil (sep : Char) (cs : List Char) :
    pySplitChar sep cs ≠ [] := by
  cases cs with
  | nil => simp [pySplitChar]
  | cons c rest =>
    simp only [pySplitChar]
    split
    · simp
    · split <;> simp

/-- Lemma: a string containing the separator splits into at least two
fields. -/
theorem two_le_pySplitChar_length (sep : Char) (cs : List Char)
    (h : sep ∈ cs) : 2 ≤ (pySplitChar sep cs).length := by
  induction cs with
  | nil => cases h
  | cons c rest ih =>
    simp only [pySplitChar]
    by_cases hc : c = sep
    · rw [if_pos hc]
      have h1 : pySplitChar sep rest ≠ [] := pySplitChar_ne_nil sep rest
      have h2 : 1 ≤ (pySplitChar sep rest).length := List.length_pos.mpr h1
      simpa using h2
    · have hmem : sep ∈ rest := by
        rcases List.mem_cons.mp h with h1 | h1
        · exact absurd h1.symm hc
        · exact h1
      have h2 := ih hmem
      rw [if_neg hc]
      cases hr : pySplitChar sep rest with
      | nil => exact absurd hr (pySplitChar_ne_nil sep rest)
      | cons a t =>
        rw [hr] at h2
        simpa using h2

/-- Lemma: `rolesAux` completes without an error whenever every
marker-containing text node contains a comma. -/
theorem rolesAux_ok_of_comma (texts : List String)
    (h : ∀ x ∈ texts, hasIamMarker x = true → ',' ∈ x.toList) :
    ∀ acc, ∃ m, rolesAux acc texts = Except.ok m := by
  induction texts with
  | nil => intro acc; exact ⟨acc, rfl⟩
  | cons x rest ih =>
    intro acc
    have hrest : ∀ y ∈ rest, hasIamMarker y = true → ',' ∈ y.toList :=
      fun y hy => h y (List.mem_cons_of_mem x hy)
    cases hx : hasIamMarker x with
    | false =>
      simp only [rolesAux, hx, Bool.false_eq_true, if_false]
      exact ih hrest acc
    | true =>
      have hcomma : ',' ∈ x.toList := h x (List.mem_cons_self x rest) hx
      have hlen : 2 ≤ (pySplitStr ',' x).length := by
        simpa [pySplitStr] using two_le_pySplitChar_length ',' x.toList hcomma
      rcases hsp : pySplitStr ',' x with _ | ⟨f0, _ | ⟨f1, fs⟩⟩
      · rw [hsp] at hlen; simp at hlen
      · rw [hsp] at hlen; simp at hlen
      · simp only [rolesAux, hx, if_true, hsp]
        exact ih hrest (dictInsert acc f0 f1)

/-- C7, counterexample: a document that parses but whose role attribute
text contains an IAM partition marker and no comma makes `roles` raise
`IndexError` — extraction does not complete for every parsed input. -/
theorem c7_marker_without_comma_raises :
    roles ["arn:aws:iam::1:role/Foo"]
      = Except.error "IndexError: list index out of range" := rfl

/-- C7, amended: `roles` raises only on fatal XML parse errors or on a
marker-containing attribute text node without a comma; whenever every
marker-containing text node contains a comma, extraction completes and
returns a mapping. -/
theorem c7_no_raise_when_commas (texts : List String)
    (h : ∀ x ∈ texts, hasIamMarker x = true → ',' ∈ x.toList) :
    ∃ m, roles texts = Except.ok m :=
  rolesAux_ok_of_comma texts h []

/-- Closed witness for `c7_no_raise_when_commas`. -/
theorem c7_no_raise_when_commas_witness :
    ∃ m, roles ["arn:aws:iam::1:role/A,p", "unrelated text"]
      = Except.ok m :=
  c7_no_raise_when_commas ["arn:aws:iam::1:role/A,p", "unrelated text"]
    (by decide)

/-- Lemma: looking up the key just assigned yields the assigned value. -/
theorem dictLookup_dictInsert_self (d : List (String × String))
    (k v : String) : dictLookup (dictInsert d k v) k = some v := by
  induction d with
  | nil => simp [dictInsert, dictLookup]
  | cons kv rest ih =>
    simp only [dictInsert]
    split
    · simp [dictLookup]
    · rename_i hne
      simp only [dictLookup, hne, if_false]
      exact ih

/-- Lemma: assignment to one key leaves every other key's lookup alone. -/
theorem dictLookup_dictInsert_ne (d : List (String × String))
    (k k' v : String) (h : k' ≠ k) :
    dictLookup (dictInsert d k v) k' = dictLookup d k' := by
  induction d with
  | nil =>
    have : (k == k') = false := by
      simpa using fun hh => h hh.symm
    simp [dictInsert, dictLookup, this]
  | cons kv rest ih =>
    simp only [dictInsert]
    split
    · rename_i hkv
      have hkv' : kv.1 = k := by simpa using hkv
      have h1 : (k == k') = false := by
        simpa using fun hh => h hh.symm
      have h2 : (kv.1 == k') = false := by
        rw [hkv']; exact h1
      simp [dictLookup, h1, h2]
    · simp only [dictLookup, ih]

/-- Lemma: assigning an absent key grows the dict by one entry. -/
theorem dictInsert_length_of_lookup_none (d : List (String × String))
    (k v : String) (h : dictLookup d k = none) :
    (dictInsert d k v).length = d.length + 1 := by
  induction d with
  | nil => rfl
  | cons kv rest ih =>
    simp only [dictLookup] at h
    by_cases hb : (kv.1 == k) = true
    · rw [if_pos hb] at h; cases h
    · rw [if_neg hb] at h
      simp only [dictInsert]
      rw [if_neg hb]
      simp [ih h]

/-- Lemma: one worker's contribution, when its role ARN has at least
five colon-separated fields, is the assignment of its account identifier
to the resolved alias or, on failure, to the identifier itself. -/
theorem resolveStep_eq_of_wf (resolve : String → String → Option String)
    (d : List (String × String)) (rp : String × String)
    (h : 5 ≤ (pySplitStr ':' rp.1).length) :
    resolveStep resolve d rp
      = dictInsert d (accountId rp.1)
          ((resolve rp.1 rp.2).getD (accountId rp.1)) := by
  simp only [resolveStep, if_pos h]
  cases resolve rp.1 rp.2 <;> rfl

/-- Lemma: behavior of the alias fan-out over well-formed roles with
pairwise distinct account identifiers, for an arbitrary starting dict
disjoint from those identifiers. -/
theorem foldl_resolveStep_spec (resolve : String → String → Option String)
    (l : List (String × String)) :
    ∀ acc : List (String × String),
    (∀ rp ∈ l, 5 ≤ (pySplitStr ':' rp.1).length) →
    l.Pairwise (fun a b => accountId a.1 ≠ accountId b.1) →
    (∀ rp ∈ l, dictLookup acc (accountId rp.1) = none) →
    (l.foldl (resolveStep resolve) acc).length = acc.length + l.length ∧
    (∀ k, (∀ rp ∈ l, accountId rp.1 ≠ k) →
      dictLookup (l.foldl (resolveStep resolve) acc) k = dictLookup acc k) ∧
    (∀ rp ∈ l, dictLookup (l.foldl (resolveStep resolve) acc) (accountId rp.1)
      = some ((resolve rp.1 rp.2).getD (accountId rp.1))) := by
  induction l with
  | nil =>
    intro acc _ _ _
    exact ⟨by simp, fun k _ => rfl, by simp⟩
  | cons rp rest ih =>
    intro acc hwf hpw hdisj
    have hwf0 : 5 ≤ (pySplitStr ':' rp.1).length :=
      hwf rp (List.mem_cons_self _ _)
    have hpw' := List.pairwise_cons.mp hpw
    have hhead : ∀ b ∈ rest, accountId rp.1 ≠ accountId b.1 := hpw'.1
    have hstep : rest.foldl (resolveStep resolve) (resolveStep resolve acc rp)
        = rest.foldl (resolveStep resolve)
            (dictInsert acc (accountId rp.1)
              ((resolve rp.1 rp.2).getD (accountId rp.1))) := by
      rw [resolveStep_eq_of_wf resolve acc rp hwf0]
    have hdisj' : ∀ rp' ∈ rest,
        dictLookup (dictInsert acc (accountId rp.1)
            ((resolve rp.1 rp.2).getD (accountId rp.1))) (accountId rp'.1)
          = none := by
      intro rp' hrp'
      rw [dictLookup_dictInsert_ne _ _ _ _ (hhead rp' hrp').symm]
      exact hdisj rp' (List.mem_cons_of_mem rp hrp')
    have ihres := ih
      (dictInsert acc (accountId rp.1)
        ((resolve rp.1 rp.2).getD (accountId rp.1)))
      (fun rp' hrp' => hwf rp' (List.mem_cons_of_mem rp hrp'))
      hpw'.2 hdisj'
    have hlen : (dictInsert acc (accountId rp.1)
        ((resolve rp.1 rp.2).getD (accountId rp.1))).length
          = acc.length + 1 :=
      dictInsert_length_of_lookup_none acc _ _
        (hdisj rp (List.mem_cons_self _ _))
    refine ⟨?_, ?_, ?_⟩
    · rw [List.foldl_cons, hstep, ihres.1, hlen]
      simp [Nat.add_assoc, Nat.add_comm 1 rest.length]
    · intro k hk
      rw [List.foldl_cons, hstep,
        ihres.2.1 k (fun rp' hrp' => hk rp' (List.mem_cons_of_mem rp hrp')),
        dictLookup_dictInsert_ne _ _ _ _
          (fun hh => hk rp (List.mem_cons_self _ _) hh.symm)]
    · intro rp' hrp'
      rcases List.mem_cons.mp hrp' with h1 | h1
      · subst h1
        rw [List.foldl_cons, hstep,
          ihres.2.1 (accountId rp'.1) (fun b hb => (hhead b hb).symm),
          dictLookup_dictInsert_self]
      · rw [List.foldl_cons, hstep]
        exact ihres.2.2 rp' h1

/-- C8, counterexample: a role ARN with fewer than five colon-separated
fields makes its worker die inside both the `try` block and the `except`
handler, so `resolve_aws_aliases` returns no entry at all for it rather
than the claimed one entry per role. -/
theorem c8_malformed_arn_drops_entry :
    resolve_aws_aliases (fun _ _ => none) [("bad", "p")] = [] ∧
    ([] : List (String × String)).length ≠ [("bad", "p")].length := by
  exact ⟨rfl, by decide⟩

/-- C8, amended: over roles whose ARN has at least five colon-separated
fields and whose account identifiers are pairwise distinct,
`resolve_aws_aliases` returns one entry per role, keyed by the account
identifier; a role whose resolution fails maps to its bare identifier,
and each role's entry depends only on that role's own outcome. A role
whose ARN lacks a fifth field instead produces no entry. -/
theorem c8_alias_fallback_and_isolation
    (resolve : String → String → Option String)
    (rolesMap : List (String × String))
    (hwf : ∀ rp ∈ rolesMap, 5 ≤ (pySplitStr ':' rp.1).length)
    (hpw : rolesMap.Pairwise (fun a b => accountId a.1 ≠ accountId b.1)) :
    (resolve_aws_aliases resolve rolesMap).length = rolesMap.length ∧
    ∀ rp ∈ rolesMap,
      dictLookup (resolve_aws_aliases resolve rolesMap) (accountId rp.1)
        = some ((resolve rp.1 rp.2).getD (accountId rp.1)) := by
  have h := foldl_resolveStep_spec resolve rolesMap []
    (by intro rp hrp; exact hwf rp hrp) hpw (fun rp _ => rfl)
  exact ⟨by simpa [resolve_aws_aliases] using h.1,
    by simpa [resolve_aws_aliases] using h.2.2⟩

/-- Closed witness for `c8_alias_fallback_and_isolation`. -/
theorem c8_alias_fallback_and_isolation_witness :
    (resolve_aws_aliases
        (fun r _ => if r == "arn:aws:iam::222:role/B" then none
          else some "myalias")
        [("arn:aws:iam::111:role/A", "p1"),
         ("arn:aws:iam::222:role/B", "p2")]).length = 2 ∧
    dictLookup
        (resolve_aws_aliases
          (fun r _ => if r == "arn:aws:iam::222:role/B" then none
            else some "myalias")
          [("arn:aws:iam::111:role/A", "p1"),
           ("arn:aws:iam::222:role/B", "p2")]) "222" = some "222" := by
  have h := c8_alias_fallback_and_isolation
    (fun r _ => if r == "arn:aws:iam::222:role/B" then none
      else some "myalias")
    [("arn:aws:iam::111:role/A", "p1"), ("arn:aws:iam::222:role/B", "p2")]
    (by decide) (by decide)
  refine ⟨h.1, ?_⟩
  have h2 := h.2 ("arn:aws:iam::222:role/B", "p2") (by simp)
  simpa using h2

/-- Lemma: the fixed-duration path performs exactly one endpoint call. -/
theorem assume_roleFixed_length (ep : Endpoint) (d : Option Nat) (k : Nat) :
    (assume_roleFixed ep d k).2.length = 1 := by
  simp only [assume_roleFixed]
  split <;> rfl

/-- C2: every `assume_role` invocation performs at most two endpoint
calls, and the narrowed retry never re-negotiates — when it fails, its
error is returned after exactly the probe call and the one retry call. -/
theorem c2_at_most_two_calls (config : Config) (ep : Endpoint)
    (duration : Option Nat) (auto_duration : Bool) (k : Nat) :
    (assume_role config ep duration auto_duration k).2.length ≤ 2 ∧
    (∀ err n e2,
      config.auto_duration = true → auto_duration = true →
      ep k (some config.max_duration) = Except.error err →
      err.code = some "ValidationError" → truthyStr err.message = true →
      searchBound (err.message.getD "").toList = some n →
      (assume_roleFixed ep (some n) (k + 1)).1 = Except.error e2 →
      ∃ d2, assume_role config ep duration auto_duration k
        = (Except.error e2, [some config.max_duration, d2])) := by
  constructor
  · simp only [assume_role]
    split
    · split
      · simp
      · split
        · split
          · simp [assume_roleFixed_length]
          · simp
        · simp
    · have h := assume_roleFixed_length ep duration k
      omega
  · intro err n e2 hcfg hauto hep hcode hmsg hsb hfix
    have hcond : (config.auto_duration && auto_duration) = true := by
      rw [hcfg, hauto]; rfl
    simp only [assume_role, hcond, if_true, hep, hcode, hmsg,
      beq_self_eq_true, Bool.and_true, hsb]
    simp only [assume_roleFixed, truthyNat] at hfix ⊢
    by_cases hn : ((n : Nat) != 0) = true
    · rw [if_pos hn] at hfix ⊢
      exact ⟨some n, by rw [← hfix]⟩
    · rw [if_neg hn] at hfix ⊢
      exact ⟨none, by rw [← hfix]⟩

/-- Closed witness for `c2_at_most_two_calls`: a probe rejected with a
narrowing message and a retry that also fails ends after two calls with
the retry's error. -/
theorem c2_at_most_two_calls_witness :
    ∃ d2, assume_role { auto_duration := true, max_duration := 43200 }
        (fun k _ =>
          if k == 0 then Except.error ⟨some "ValidationError",
            some "Member must have value less than or equal to 28800"⟩
          else Except.error ⟨some "AccessDenied", some "still refused"⟩)
        none true 0
      = (Except.error ⟨some "AccessDenied", some "still refused"⟩,
         [some 43200, d2]) :=
  (c2_at_most_two_calls { auto_duration := true, max_duration := 43200 }
      (fun k _ =>
        if k == 0 then Except.error ⟨some "ValidationError",
          some "Member must have value less than or equal to 28800"⟩
        else Except.error ⟨some "AccessDenied", some "still refused"⟩)
      none true 0).2
    ⟨some "ValidationError",
      some "Member must have value less than or equal to 28800"⟩
    28800 ⟨some "AccessDenied", some "still refused"⟩
    rfl rfl rfl rfl rfl (by decide) rfl

/-- C3, counterexample: when the extracted bound is the all-zero digit
string `000`, the narrowed retry omits `DurationSeconds` entirely (the
Python truthiness test on `duration` fails), so the further call is not
made with duration `N = 0` as the claim states. -/
theorem c3_zero_bound_omits_duration :
    assume_role { auto_duration := true, max_duration := 43200 }
        (fun k _ =>
          if k == 0 then Except.error ⟨some "ValidationError",
            some "Member must have value less than or equal to 000"⟩
          else Except.ok ⟨⟨"AK", "SK", "TK", "EX"⟩⟩)
        none true 0
      = (Except.ok ⟨⟨"AK", "SK", "TK", "EX"⟩⟩, [some 43200, none]) ∧
    (none : Option Nat) ≠ some 0 := by
  exact ⟨rfl, by decide⟩

/-- C3, amended: with adaptive negotiation enabled, a probe failure whose
error has code `ValidationError` and a message matching the narrowing
pattern with bound `n` leads to exactly one further endpoint call — with
`DurationSeconds = n` when `n` is positive, and with the parameter
omitted when the extracted bound is zero — whose result is returned (two
calls total); a probe failure not meeting the narrowing conditions is
propagated unchanged after a single endpoint call. -/
theorem c3_narrowing_and_propagation (config : Config) (ep : Endpoint)
    (duration : Option Nat) (auto_duration : Bool) (k : Nat)
    (err : ClientError)
    (hcfg : config.auto_duration = true) (hauto : auto_duration = true)
    (hep : ep k (some config.max_duration) = Except.error err) :
    (∀ n, err.code = some "ValidationError" → truthyStr err.message = true →
      searchBound (err.message.getD "").toList = some n → 0 < n →
      assume_role config ep duration auto_duration k
        = (ep (k + 1) (some n), [some config.max_duration, some n])) ∧
    (err.code = some "ValidationError" → truthyStr err.message = true →
      searchBound (err.message.getD "").toList = some 0 →
      assume_role config ep duration auto_duration k
        = (ep (k + 1) none, [some config.max_duration, none])) ∧
    (¬ (err.code = some "ValidationError" ∧ truthyStr err.message = true ∧
        (searchBound (err.message.getD "").toList).isSome = true) →
      assume_role config ep duration auto_duration k
        = (Except.error err, [some config.max_duration])) := by
  have hcond : (config.auto_duration && auto_duration) = true := by
    rw [hcfg, hauto]; rfl
  refine ⟨?_, ?_, ?_⟩
  · intro n hcode hmsg hsb hpos
    have hn : ((n : Nat) != 0) = true := by
      simpa using Nat.pos_iff_ne_zero.mp hpos
    have hsb' : searchBound (err.message.getD "").data = some n := hsb
    simp [assume_role, hcond, hep, hcode, hmsg, hsb, hsb', assume_roleFixed,
      truthyNat, hn]
  · intro hcode hmsg hsb
    have hsb' : searchBound (err.message.getD "").data = some 0 := hsb
    simp [assume_role, hcond, hep, hcode, hmsg, hsb, hsb', assume_roleFixed,
      truthyNat]
  · intro hnot
    simp only [assume_role, hcond, if_true, hep]
    split
    · rename_i hcond2
      rw [Bool.and_eq_true] at hcond2
      obtain ⟨hc, hm⟩ := hcond2
      have hcode : err.code = some "ValidationError" := by simpa using hc
      cases hsb : searchBound (err.message.getD "").toList with
      | none =>
        have hsb' : searchBound (err.message.getD "").data = none := hsb
        simp [hsb, hsb']
      | some n =>
        exact absurd ⟨hcode, hm, by rw [hsb]; rfl⟩ hnot
    · rfl

/-- Closed witness for `c3_narrowing_and_propagation`: the claim's two
scenario tests — a bound of 28800 is retried once with that duration and
the second credential returned, and an unrelated error is propagated
after one call. -/
theorem c3_narrowing_and_propagation_witness :
    assume_role { auto_duration := true, max_duration := 43200 }
        (fun k d =>
          if k == 0 then Except.error ⟨some "ValidationError",
            some "Member must have value less than or equal to 28800"⟩
          else if d == some 28800 then Except.ok ⟨⟨"AK", "SK", "TK", "EX"⟩⟩
          else Except.error ⟨some "InternalError", some "wrong duration"⟩)
        none true 0
      = (Except.ok ⟨⟨"AK", "SK", "TK", "EX"⟩⟩, [some 43200, some 28800]) ∧
    assume_role { auto_duration := true, max_duration := 43200 }
        (fun _ _ => Except.error ⟨some "AccessDenied", some "no"⟩)
        none true 0
      = (Except.error ⟨some "AccessDenied", some "no"⟩, [some 43200]) := by
  constructor
  · have h := (c3_narrowing_and_propagation
      { auto_duration := true, max_duration := 43200 }
      (fun k d =>
        if k == 0 then Except.error ⟨some "ValidationError",
          some "Member must have value less than or equal to 28800"⟩
        else if d == some 28800 then Except.ok ⟨⟨"AK", "SK", "TK", "EX"⟩⟩
        else Except.error ⟨some "InternalError", some "wrong duration"⟩)
      none true 0
      ⟨some "ValidationError",
        some "Member must have value less than or equal to 28800"⟩
      rfl rfl rfl).1 28800 rfl rfl (by decide) (by decide)
    simpa using h
  · exact (c3_narrowing_and_propagation
      { auto_duration := true, max_duration := 43200 }
      (fun _ _ => Except.error ⟨some "AccessDenied", some "no"⟩)
      none true 0 ⟨some "AccessDenied", some "no"⟩ rfl rfl rfl).2.2
      (by intro h; exact absurd h.1 (by decide))

/-- Lemma: a digit-only run is its own leading-digit run. -/
theorem leadingDigits_all_digits (ds : List Char)
    (h : ∀ c ∈ ds, c.isDigit = true) : leadingDigits ds = ds := by
  induction ds with
  | nil => rfl
  | cons c cs ih =>
    simp only [leadingDigits, h c (List.mem_cons_self _ _), if_true]
    rw [ih fun x hx => h x (List.mem_cons_of_mem c hx)]

/-- Lemma: at the start of `phrase ++ digits`, the narrowing pattern
matches and captures the first at most five digits. -/
theorem matchBoundAt_phrase (ds : List Char)
    (h : ∀ c ∈ ds, c.isDigit = true) (hlen : 3 ≤ ds.length) :
    matchBoundAt (boundPhrase ++ ds) = some (digitsVal (ds.take 5)) := by
  have hpre : boundPhrase.isPrefixOf (boundPhrase ++ ds) = true := by
    rw [List.isPrefixOf_iff_prefix]
    exact List.prefix_append _ _
  have htake : 3 ≤ ((ds.take 5).length) := by
    rw [List.length_take]
    omega
  simp only [matchBoundAt, hpre, if_true, List.drop_left,
    leadingDigits_all_digits ds h]
  rw [if_pos htake]

/-- Lemma: a message consisting of the narrowing phrase followed by a
suffix is truthy (non-empty). -/
theorem truthyStr_phrase_append (ds : List Char) :
    truthyStr (some (boundPhrase ++ ds).asString) = true := by
  have h : ((boundPhrase ++ ds).asString).isEmpty = false := by
    rw [Bool.eq_false_iff]
    intro habs
    have h2 : (boundPhrase ++ ds).asString = "" :=
      (String.isEmpty_iff _).mp habs
    have h3 : boundPhrase ++ ds = ([] : List Char) :=
      congrArg String.toList h2
    exact absurd (List.append_eq_nil.mp h3).1 (by decide)
  simp [truthyStr, h]

/-- Lemma: a match at the head position is the search result. -/
theorem searchBound_head (l : List Char) (n : Nat)
    (h : matchBoundAt l = some n) : searchBound l = some n := by
  cases l with
  | nil => rw [show matchBoundAt ([] : List Char) = none from by decide] at h; cases h
  | cons c cs => simp only [searchBound, h]

/-- C10, counterexample: a validation error whose embedded bound has six
digits is narrowed after all — the regex group captures the first five
digits, so the probe failure with bound `129600` triggers a second call
with duration `12960` instead of propagating after a single call. -/
theorem c10_six_digit_bound_is_narrowed :
    assume_role { auto_duration := true, max_duration := 43200 }
        (fun k _ =>
          if k == 0 then Except.error ⟨some "ValidationError",
            some "Member must have value less than or equal to 129600"⟩
          else Except.ok ⟨⟨"AK", "SK", "TK", "EX"⟩⟩)
        none true 0
      = (Except.ok ⟨⟨"AK", "SK", "TK", "EX"⟩⟩,
         [some 43200, some 12960]) := rfl

/-- C10, amended: narrowing requires the error code to equal exactly
`ValidationError` and the message to contain the narrowing phrase
followed by at least three digits; a differing code, or a message the
pattern does not match anywhere, is propagated unchanged after a single
call. When the phrase is followed by a digit run, the extracted bound is
the value of its first at most five digits — so a bound of six or more
digits is narrowed using its first five digits rather than propagated. -/
theorem c10_narrowing_preconditions (config : Config) (ep : Endpoint)
    (duration : Option Nat) (auto_duration : Bool) (k : Nat)
    (err : ClientError)
    (hcfg : config.auto_duration = true) (hauto : auto_duration = true)
    (hep : ep k (some config.max_duration) = Except.error err) :
    (err.code ≠ some "ValidationError" →
      assume_role config ep duration auto_duration k
        = (Except.error err, [some config.max_duration])) ∧
    (∀ s, err.message = some s → searchBound s.toList = none →
      assume_role config ep duration auto_duration k
        = (Except.error err, [some config.max_duration])) ∧
    (∀ ds, err.code = some "ValidationError" →
      err.message = some (boundPhrase ++ ds).asString →
      (∀ c ∈ ds, c.isDigit = true) → 3 ≤ ds.length →
      0 < digitsVal (ds.take 5) →
      assume_role config ep duration auto_duration k
        = (ep (k + 1) (some (digitsVal (ds.take 5))),
           [some config.max_duration, some (digitsVal (ds.take 5))])) := by
  have hcond : (config.auto_duration && auto_duration) = true := by
    rw [hcfg, hauto]; rfl
  refine ⟨?_, ?_, ?_⟩
  · intro hne
    have hc : (err.code == some "ValidationError") = false := by
      simpa using hne
    simp [assume_role, hcond, hep, hc]
  · intro s hs hsb
    simp only [assume_role, hcond, if_true, hep, hs]
    split
    · have : (some s).getD "" = s := rfl
      rw [this, hsb]
    · rfl
  · intro ds hcode hmsg hdig hlen hpos
    have hmsgT : truthyStr err.message = true := by
      rw [hmsg]; exact truthyStr_phrase_append ds
    have hsb : searchBound (err.message.getD "").toList
        = some (digitsVal (ds.take 5)) := by
      rw [hmsg]
      exact searchBound_head _ _ (matchBoundAt_phrase ds hdig hlen)
    have hsb' : searchBound (err.message.getD "").data
        = some (digitsVal (ds.take 5)) := hsb
    have hn : ((digitsVal (ds.take 5)) != 0) = true := by
      simpa using Nat.pos_iff_ne_zero.mp hpos
    simp [assume_role, hcond, hep, hcode, hmsgT, hsb, hsb', assume_roleFixed,
      truthyNat, hn]

/-- Closed witness for `c10_narrowing_preconditions`: a probe failure with
an unrelated error code is propagated after one call, and one whose bound
has six digits is narrowed to the value of the first five. -/
theorem c10_narrowing_preconditions_witness :
    assume_role { auto_duration := true, max_duration := 43200 }
        (fun _ _ => Except.error ⟨some "Throttling", some "slow down"⟩)
        none true 0
      = (Except.error ⟨some "Throttling", some "slow down"⟩,
         [some 43200]) ∧
    assume_role { auto_duration := true, max_duration := 43200 }
        (fun k _ =>
          if k == 0 then Except.error ⟨some "ValidationError",
            some "Member must have value less than or equal to 129600"⟩
          else Except.ok ⟨⟨"AK", "SK", "TK", "EX"⟩⟩)
        none true 0
      = (Except.ok ⟨⟨"AK", "SK", "TK", "EX"⟩⟩,
         [some 43200, some 12960]) := by
  constructor
  · exact (c10_narrowing_preconditions
      { auto_duration := true, max_duration := 43200 }
      (fun _ _ => Except.error ⟨some "Throttling", some "slow down"⟩)
      none true 0 ⟨some "Throttling", some "slow down"⟩
      rfl rfl rfl).1 (by decide)
  · have h := (c10_narrowing_preconditions
      { auto_duration := true, max_duration := 43200 }
      (fun k _ =>
        if k == 0 then Except.error ⟨some "ValidationError",
          some "Member must have value less than or equal to 129600"⟩
        else Except.ok ⟨⟨"AK", "SK", "TK", "EX"⟩⟩)
      none true 0
      ⟨some "ValidationError",
        some "Member must have value less than or equal to 129600"⟩
      rfl rfl rfl).2.2 "129600".toList rfl (by decide) (by decide)
      (by decide) (by decide)
    rw [h]
    rfl

/-- C4: `is_valid_saml_assertion` is a total boolean check — it yields
`true` exactly when the input is a parsed document whose first
`Conditions` element carries two timestamps that parse in the UTC
format, with `not_before <= now < not_on_or_after` (lower bound
inclusive, upper bound exclusive); every other input — a missing
argument, an unparseable document, a missing conditions element, a
missing or malformed timestamp, or an out-of-window clock — yields
`false`. -/
theorem c4_is_valid_characterization (saml_xml : Option (Option SamlDoc))
    (now : DateTime) :
    is_valid_saml_assertion saml_xml now = true ↔
    ∃ doc c nbs noas nb noa,
      saml_xml = some (some doc) ∧
      doc.conditions.head? = some c ∧
      c.notBefore = some nbs ∧
      c.notOnOrAfter = some noas ∧
      strptimeSaml nbs = some nb ∧
      strptimeSaml noas = some noa ∧
      dtLe nb now = true ∧
      dtLt now noa = true := by
  constructor
  · intro h
    rcases saml_xml with _ | (_ | doc)
    · exact absurd h (by simp [is_valid_saml_assertion])
    · exact absurd h (by simp [is_valid_saml_assertion])
    · simp only [is_valid_saml_assertion] at h
      split at h
      · exact absurd h (by simp)
      · rename_i c rest hcs
        split at h
        · rename_i nbs noas hnb hnoa
          split at h
          · rename_i nb noa hpnb hpnoa
            rw [Bool.and_eq_true] at h
            exact ⟨doc, c, nbs, noas, nb, noa, rfl, by rw [hcs]; rfl,
              hnb, hnoa, hpnb, hpnoa, h.1, h.2⟩
          · exact absurd h (by simp)
        · exact absurd h (by simp)
  · rintro ⟨doc, c, nbs, noas, nb, noa, rfl, hc, hnb, hnoa, hpnb, hpnoa,
      hle, hlt⟩
    rcases hcs : doc.conditions with _ | ⟨c0, rest⟩
    · rw [hcs] at hc; cases hc
    · rw [hcs] at hc
      simp only [List.head?_cons, Option.some.injEq] at hc
      subst hc
      simp only [is_valid_saml_assertion, hcs, hnb, hnoa, hpnb, hpnoa,
        hle, hlt, Bool.and_self]

end AwsSamlAuth
